import Mathlib

/-!
Verification of the vespa-go YQL query builder.

This development is a shallow embedding of the Go package `vespa`
(files `conditions.go` / `types.go` / `same_element.go` / `builder.go` /
`rank.go` of the repository) into Lean 4.  Go's dynamically typed
`interface{}` values are modelled by the closed tagged union `GoVal`;
a Go `WhereCondition` interface value is modelled by `Condition`, whose
constructor `Condition.nilC` stands for the `nil` interface value
(calling `ToYQL` on it panics at run time, which the embedding models
by returning `none`).  Finite `float64` values are modelled by their
shortest decimal representation (`GoFloat`), the data that Go's
`strconv` produces from the bits before deciding on a textual shape.
-/

namespace VespaGo

/-- Shortest-decimal representation of a finite Go `float64`, the
intermediate data (`decimalSlice`) that `strconv.FormatFloat` derives
from the binary value before formatting.  `digits` are the shortest
decimal mantissa digits (each `< 10`, no trailing zeros), and the value
is `0.d₁d₂…dₙ · 10^dp`, negated when `neg` is set.  Zero is
`⟨false, [0], 1⟩`.  NaN and the infinities are outside the model. -/
structure GoFloat where
  neg : Bool
  digits : List Nat
  dp : Int
deriving DecidableEq, Repr

/-- The dynamic (`interface{}`) values the builder is used with: the
cases of `formatValue`'s type switch, plus slices (`[]interface{}`,
`[]string`) and a catch-all `other` carrying the `%v` rendering of a
value of any unhandled type.  All Go integer kinds (`int`, `int8`, …,
`uint64`) are collapsed into `int`, and both float kinds into `float`,
since they format identically. -/
inductive GoVal where
  | str (s : String)
  | int (n : Int)
  | float (f : GoFloat)
  | bool (b : Bool)
  | null
  | strList (ss : List String)
  | list (vs : List GoVal)
  | other (repr : String)
deriving Repr

/-- `escapeString` from `conditions.go`:
`strings.ReplaceAll(s, "'", "\\'")` — replace every single quote by a
backslash followed by a single quote.  With a one-character pattern,
`ReplaceAll` is exactly this character-by-character substitution. -/
def escapeString (s : String) : String :=
  String.mk (s.data.flatMap (fun c => if c = '\'' then ['\\', '\''] else [c]))

example : escapeString "test" = "test" := by decide
example : escapeString "test's" = "test\\'s" := by decide

/-! ### Float formatting

Go renders `float32`/`float64` through `fmt.Sprintf("%v", v)`, which is
`strconv.FormatFloat(v, 'g', -1, size)` (shortest digits), and renders
the `distanceThreshold` parameter through `fmt.Sprintf("%f", v)`, which
is `FormatFloat(v, 'f', 6, 64)`.  Both paths first turn the binary
value into decimal digits plus a decimal-point position and then lay the
digits out; the layout code below mirrors `strconv`'s `fmtE` / `fmtF` /
`formatDigits` on the `GoFloat` digit data.  (For `'f'` with precision
6, `strconv` first rounds the digit slice to `dp + 6` digits; for every
value appearing in this development the shortest digits already fit, so
the rounding step is the identity and is not modelled.) -/

/-- The digit characters of a decimal digit list. -/
def digitsToString (ds : List Nat) : String :=
  String.mk (ds.map Nat.digitChar)

/-- A run of `n` zero characters. -/
def zeroString (n : Nat) : String :=
  String.mk (List.replicate n '0')

/-- `strconv`'s `fmtE` for shortest digits: `d.dddde±XX` with the
exponent written with at least two digits. -/
def fmtE (f : GoFloat) : String :=
  let exp : Int := f.dp - 1
  let mant : String :=
    match f.digits with
    | [] => "0"
    | d :: rest =>
        digitsToString [d] ++ (if rest.isEmpty then "" else "." ++ digitsToString rest)
  let esign : String := if exp < 0 then "-" else "+"
  let eabs : Nat := exp.natAbs
  let edigits : String := if eabs < 10 then "0" ++ toString eabs else toString eabs
  mant ++ "e" ++ esign ++ edigits

/-- `strconv`'s `fmtF`: fixed-point layout of the digits with exactly
`prec` digits after the decimal point (no point at all when
`prec = 0`).  The integer part takes the digits before the decimal
point, zero-padded on the right when the point lies past the last
digit, and is `0` when the point lies before the first digit; each of
the `prec` fraction positions takes the corresponding digit or `0`. -/
def fmtF (f : GoFloat) (prec : Nat) : String :=
  let nd : Nat := f.digits.length
  let intPart : String :=
    if 0 < f.dp then
      let m : Nat := min nd f.dp.toNat
      digitsToString (f.digits.take m) ++ zeroString (f.dp.toNat - m)
    else "0"
  let fracPart : String :=
    if 0 < prec then
      "." ++ String.mk ((List.range prec).map (fun i =>
        let j : Int := f.dp + Int.ofNat i
        if 0 ≤ j ∧ j < (nd : Int) then Nat.digitChar (f.digits.getD j.toNat 0) else '0'))
    else ""
  intPart ++ fracPart

/-- `fmt.Sprintf("%v", v)` on a finite float: `strconv`'s
`formatDigits` with format `'g'` and shortest digits.  With shortest
digits the `'g'` code sets `eprec = 6`, computes `exp = dp - 1`, and
uses the scientific `fmtE` layout when `exp < -4` or `exp ≥ eprec`,
the fixed-point `fmtF` layout (with `max(nd - dp, 0)` fraction digits)
otherwise. -/
def goFormatFloat (f : GoFloat) : String :=
  let exp : Int := f.dp - 1
  let body : String :=
    if exp < -4 ∨ 6 ≤ exp then fmtE f
    else fmtF f ((- f.dp + (f.digits.length : Int)).toNat)
  (if f.neg then "-" else "") ++ body

/-- `fmt.Sprintf("%f", v)` on a finite float: `strconv`'s `'f'` format
with precision 6 — always `fmtF` with six fraction digits, never
scientific. -/
def goFormatFloatF (f : GoFloat) : String :=
  (if f.neg then "-" else "") ++ fmtF f 6

-- 4.5, 10.0, 100.0, 99.99, 0.8, 0.0 — the shortest-digit data and %v output
example : goFormatFloat ⟨false, [4, 5], 1⟩ = "4.5" := by decide
example : goFormatFloat ⟨false, [1], 2⟩ = "10" := by decide
example : goFormatFloat ⟨false, [1], 3⟩ = "100" := by decide
example : goFormatFloat ⟨false, [9, 9, 9, 9], 2⟩ = "99.99" := by decide
example : goFormatFloat ⟨false, [8], 0⟩ = "0.8" := by decide
example : goFormatFloat ⟨false, [0], 1⟩ = "0" := by decide
example : goFormatFloat ⟨true, [2, 5], 1⟩ = "-2.5" := by decide
-- 1e-07 and 1e+21: scientific under %v
example : goFormatFloat ⟨false, [1], -6⟩ = "1e-07" := by decide
example : goFormatFloat ⟨false, [1], 22⟩ = "1e+21" := by decide
-- %f always six decimals
example : goFormatFloatF ⟨false, [8], 0⟩ = "0.800000" := by decide
example : goFormatFloatF ⟨false, [9], 0⟩ = "0.900000" := by decide

/-! ### Value formatting (`formatValue`, `formatInValues` in `conditions.go`) -/

mutual
/-- `fmt`'s `%v` text of a dynamic value, used by `formatValue`'s
default branch (`fmt.Sprintf("'%v'", v)`).  Strings print bare, slices
print bracketed and space-separated; the `other` case carries its `%v`
text as data. -/
def goRepr : GoVal → String
  | .str s => s
  | .int n => toString n
  | .float f => goFormatFloat f
  | .bool b => if b then "true" else "false"
  | .null => "<nil>"
  | .strList ss => "[" ++ String.intercalate " " ss ++ "]"
  | .list vs => "[" ++ String.intercalate " " (goReprList vs) ++ "]"
  | .other r => r

/-- `%v` of each element of a `[]interface{}`. -/
def goReprList : List GoVal → List String
  | [] => []
  | v :: rest => goRepr v :: goReprList rest
end

/-- `formatValue` from `conditions.go`: `nil` → `null`; strings are
single-quoted with quotes escaped; integer and float kinds print with
`%v`; booleans with `%t`; anything else falls back to
`fmt.Sprintf("'%v'", v)` — single-quoted stringification, with no
escaping. -/
def formatValue : GoVal → String
  | .null => "null"
  | .str s => "'" ++ escapeString s ++ "'"
  | .int n => toString n
  | .float f => goFormatFloat f
  | .bool b => if b then "true" else "false"
  | v => "'" ++ goRepr v ++ "'"

/-- `formatInValues` from `conditions.go`: a non-slice value is
formatted and parenthesized; a slice formats each element with
`formatValue` and joins them with `", "` inside parentheses. -/
def formatInValues : GoVal → String
  | .list vs => "(" ++ String.intercalate ", " (vs.map formatValue) ++ ")"
  | .strList ss => "(" ++ String.intercalate ", " (ss.map (fun s => formatValue (.str s))) ++ ")"
  | v => "(" ++ formatValue v ++ ")"

example : formatValue (.str "test") = "'test'" := by decide
example : formatValue (.str "test's") = "'test\\'s'" := by decide
example : formatValue (.int 42) = "42" := by decide
example : formatValue (.float ⟨false, [3, 1, 4], 1⟩) = "3.14" := by decide
example : formatValue (.bool true) = "true" := by decide
example : formatValue (.bool false) = "false" := by decide
example : formatValue .null = "null" := by decide
example : formatInValues (.strList ["electronics", "gadgets"]) = "('electronics', 'gadgets')" := by rfl

/-! ### The expression model -/

/-- The `Operator` string constants of `types.go`.  `unknownOp` stands
for any other string of the underlying `type Operator string`, which
`FieldCondition.ToYQL`'s `default` branch renders as the empty
string. -/
inductive Operator where
  | eq | neq | gt | gte | lt | lte
  | inOp | notIn
  | containsOp | notContains | matches
  | unknownOp
deriving DecidableEq, Repr

/-- The `ContainsType` string constants of `types.go`.  (Any other
string of the underlying type takes `ToYQL`'s `default` branch, which
emits the same text as `exact`.) -/
inductive ContainsType where
  | exact | phrase | fuzzy
deriving DecidableEq, Repr

/-- A Go `WhereCondition` interface value: `nil` or one of the concrete
implementers (`FieldCondition`, `BooleanCondition`, `RangeCondition`,
`NearestNeighbor`, `UserQueryFeature`, `NotCondition`,
`SameElementCondition`, `CustomFeature`).  Each constructor carries the
fields of the corresponding Go struct. -/
inductive Condition where
  | nilC
  | fieldC (field : String) (op : Operator) (value : GoVal) (containsType : ContainsType)
  | booleanC (left : Condition) (op : String) (right : Condition)
  | rangeC (field : String) (min max : GoVal)
  | nearestNeighbor (field queryVector : String) (targetHits : Int)
      (label : String) (distanceThreshold : Option GoFloat) (approximate : Option Bool)
  | userQueryF (defaultIndex : String)
  | notC (condition : Condition)
  | sameElementC (field : String) (conditions : List Condition)
  | customF (expression : String)
deriving Repr

/-- `FieldCondition.ToYQL` from `conditions.go` (total: every branch
returns a string). -/
def fieldToYQL (f : String) (op : Operator) (v : GoVal) (ct : ContainsType) : String :=
  match op with
  | .eq =>
      match v with
      | .str _ => "(" ++ f ++ " contains " ++ formatValue v ++ ")"
      | _ => "(" ++ f ++ " = " ++ formatValue v ++ ")"
  | .neq =>
      match v with
      | .str _ => "!(" ++ f ++ " contains " ++ formatValue v ++ ")"
      | _ => "(" ++ f ++ " != " ++ formatValue v ++ ")"
  | .gt => "(" ++ f ++ " > " ++ formatValue v ++ ")"
  | .gte => "(" ++ f ++ " >= " ++ formatValue v ++ ")"
  | .lt => "(" ++ f ++ " < " ++ formatValue v ++ ")"
  | .lte => "(" ++ f ++ " <= " ++ formatValue v ++ ")"
  | .inOp => "(" ++ f ++ " in " ++ formatInValues v ++ ")"
  | .notIn => "(" ++ f ++ " not in " ++ formatInValues v ++ ")"
  | .containsOp =>
      match ct with
      | .exact => "(" ++ f ++ " contains " ++ formatValue v ++ ")"
      | .phrase =>
          match v with
          | .strList keywords =>
              "(" ++ f ++ " contains phrase(" ++
                String.intercalate ", " (keywords.map (fun kw => "'" ++ escapeString kw ++ "'")) ++ "))"
          | .str s => "(" ++ f ++ " contains phrase(" ++ formatValue (.str s) ++ "))"
          | _ => "(" ++ f ++ " contains " ++ formatValue v ++ ")"
      | .fuzzy => "(" ++ f ++ " contains fuzzy(" ++ formatValue v ++ "))"
  | .notContains => "(" ++ f ++ " not contains " ++ formatValue v ++ ")"
  | .matches => "(" ++ f ++ " matches " ++ formatValue v ++ ")"
  | .unknownOp => ""

/-- `NearestNeighbor.ToYQL` from `conditions.go`: build the brace
parameter list — `targetHits` always, then `label` when non-empty, then
`distanceThreshold` (via `%f`) when set, then `approximate` (via `%t`)
when set — join it with `","`, and wrap. -/
def nearestNeighborToYQL (field queryVector : String) (targetHits : Int)
    (label : String) (distanceThreshold : Option GoFloat) (approximate : Option Bool) : String :=
  let params : List String := ["targetHits:" ++ toString targetHits]
  let params : List String :=
    if label ≠ "" then params ++ ["label:'" ++ label ++ "'"] else params
  let params : List String :=
    match distanceThreshold with
    | some t => params ++ ["distanceThreshold:" ++ goFormatFloatF t]
    | none => params
  let params : List String :=
    match approximate with
    | some b => params ++ ["approximate:" ++ (if b then "true" else "false")]
    | none => params
  "(\x7b" ++ String.intercalate "," params ++ "\x7dnearestNeighbor(" ++
    field ++ ", " ++ queryVector ++ "))"

/-- `UserQueryFeature.ToYQL` from `conditions.go`. -/
def userQueryToYQL (defaultIndex : String) : String :=
  if defaultIndex ≠ "" then
    "\x7bdefaultIndex:\"" ++ defaultIndex ++ "\"\x7duserQuery()"
  else "userQuery()"

mutual
/-- `ToYQL` of a `WhereCondition` interface value.  Calling a method on
the `nil` interface value panics in Go; the embedding returns `none`
for it and propagates the panic through the recursive calls the
concrete `ToYQL` implementations make on their children
(`BooleanCondition` renders both sides, `NotCondition` its inner
condition, `SameElementCondition` every element of its list — dropping
those that render empty, and returning the empty string when the list
is empty or nothing survives). -/
def condToYQL : Condition → Option String
  | .nilC => none
  | .fieldC f op v ct => some (fieldToYQL f op v ct)
  | .booleanC l op r => do
      let ls ← condToYQL l
      let rs ← condToYQL r
      pure ("(" ++ ls ++ " " ++ op ++ " " ++ rs ++ ")")
  | .rangeC f mn mx =>
      some ("((" ++ f ++ " >= " ++ formatValue mn ++ ") and (" ++
        f ++ " <= " ++ formatValue mx ++ "))")
  | .nearestNeighbor f qv th lb dt ap => some (nearestNeighborToYQL f qv th lb dt ap)
  | .userQueryF idx => some (userQueryToYQL idx)
  | .notC c => do
      let s ← condToYQL c
      pure ("!(" ++ s ++ ")")
  | .sameElementC f cs =>
      if cs.isEmpty then some ""
      else do
        let rendered ← condListToYQL cs
        let conditionStrings := rendered.filter (fun s => s ≠ "")
        if conditionStrings.isEmpty then pure ""
        else pure ("(" ++ f ++ " contains sameElement(" ++
          String.intercalate ", " conditionStrings ++ "))")
  | .customF e => some e

/-- Render each condition of a list in order (the `for … range` loops
of `SameElementCondition.ToYQL`, `RankExpressionImpl.ToYQL` and
`buildWhereClause`), propagating a panic from any element. -/
def condListToYQL : List Condition → Option (List String)
  | [] => some []
  | c :: rest => do
      let s ← condToYQL c
      let ss ← condListToYQL rest
      pure (s :: ss)
end

-- A sampling of the repository's own test vectors for `ToYQL`.
example : condToYQL (.fieldC "brand" .eq (.str "nike") .exact) =
    some "(brand contains 'nike')" := by rfl
example : condToYQL (.fieldC "brand" .neq (.str "adidas") .exact) =
    some "!(brand contains 'adidas')" := by rfl
example : condToYQL (.fieldC "price" .gt (.int 100) .exact) =
    some "(price > 100)" := by rfl
example : condToYQL (.fieldC "category" .inOp (.strList ["electronics", "gadgets"]) .exact) =
    some "(category in ('electronics', 'gadgets'))" := by rfl
example : condToYQL (.fieldC "sku" .matches (.str "^PRD-.*") .exact) =
    some "(sku matches '^PRD-.*')" := by rfl
example : condToYQL (.fieldC "brand" .containsOp (.strList ["nike", "air"]) .phrase) =
    some "(brand contains phrase('nike', 'air'))" := by rfl
example : condToYQL (.fieldC "description" .containsOp (.str "wireless") .fuzzy) =
    some "(description contains fuzzy('wireless'))" := by rfl
example : condToYQL (.rangeC "price" (.float ⟨false, [1], 2⟩) (.float ⟨false, [1], 3⟩)) =
    some "((price >= 10) and (price <= 100))" := by rfl
example : condToYQL (.nearestNeighbor "embedding" "query_vector" 1000 "" none none) =
    some "(\x7btargetHits:1000\x7dnearestNeighbor(embedding, query_vector))" := by rfl
example : condToYQL (.nearestNeighbor "embedding" "query_vector" 1000 "main_query"
      (some ⟨false, [8], 0⟩) (some false)) =
    some "(\x7btargetHits:1000,label:'main_query',distanceThreshold:0.800000,approximate:false\x7dnearestNeighbor(embedding, query_vector))" := by rfl
example : condToYQL (.userQueryF "title") =
    some "\x7bdefaultIndex:\"title\"\x7duserQuery()" := by rfl
example : condToYQL (.notC (.fieldC "brand" .containsOp (.str "nike") .exact)) =
    some "!((brand contains 'nike'))" := by rfl
example : condToYQL (.sameElementC "sizes" []) = some "" := by rfl
example : condToYQL (.sameElementC "sizes"
      [.fieldC "family" .containsOp (.str "clothing") .exact,
       .fieldC "size_value" .containsOp (.str "M") .exact]) =
    some "(sizes contains sameElement((family contains 'clothing'), (size_value contains 'M')))" := by rfl

/-! ### Combinators (`And`, `Or`, `Not` in `conditions.go`) -/

/-- `And` from `conditions.go`: no arguments → the `nil` interface
value; one argument → that argument unchanged; otherwise a
left-associative fold into `BooleanCondition` nodes with operator
`"AND"`. -/
def andGo (conditions : List Condition) : Condition :=
  match conditions with
  | [] => .nilC
  | [c] => c
  | c :: rest => rest.foldl (fun result ci => .booleanC result "AND" ci) c

/-- `Or` from `conditions.go`: like `andGo` with operator `"OR"`. -/
def orGo (conditions : List Condition) : Condition :=
  match conditions with
  | [] => .nilC
  | [c] => c
  | c :: rest => rest.foldl (fun result ci => .booleanC result "OR" ci) c

/-- `Not` from `conditions.go`. -/
def notGo (condition : Condition) : Condition := .notC condition

/-! ### Rank expressions (`rank.go`) and the query builder (`builder.go`) -/

/-- `RankExpressionImpl.ToYQL`: nothing for an empty list; otherwise
render every condition in order, drop the empty renderings, and wrap
the survivors in `rank(…)` joined by `", "` — or nothing if no
rendering survives. -/
def rankToYQL (conditions : List Condition) : Option String :=
  if conditions.isEmpty then some ""
  else do
    let rendered ← condListToYQL conditions
    let expressions := rendered.filter (fun s => s ≠ "")
    if expressions.isEmpty then pure ""
    else pure ("rank(" ++ String.intercalate ", " expressions ++ ")")

/-- `ValidationError` from `types.go`. -/
structure ValidationError where
  field : String
  message : String
deriving DecidableEq, Repr

/-- `QueryBuilderImpl` from `builder.go`.  The `rankExpression`
interface field is `none` when never set; `inputParams` is the
`map[string]interface{}` represented as an insertion-ordered
association list (Go's map iteration order is unspecified; the list
order stands in for it, which only affects which offending key a
validation message names). -/
structure QueryBuilderImpl where
  selectFields : List String := []
  sources : List String := []
  whereConditions : List Condition := []
  rankExpression : Option (List Condition) := none
  ranking : String := ""
  hits : Int := 0
  offset : Int := 0
  defaultIndex : String := ""
  inputParams : List (String × GoVal) := []
  query : String := ""

/-- `VespaQuery` from `types.go`. -/
structure VespaQuery where
  yql : String := ""
  ranking : String := ""
  hits : Int := 0
  offset : Int := 0
  defaultIndex : String := ""
  input : List (String × GoVal) := []
  query : String := ""

/-- `WithInput`: Go map assignment — overwrite the key when present,
insert it otherwise. -/
def withInput (qb : QueryBuilderImpl) (key : String) (value : GoVal) : QueryBuilderImpl :=
  if qb.inputParams.any (fun kv => kv.1 = key) then
    { qb with inputParams := qb.inputParams.map (fun kv => if kv.1 = key then (key, value) else kv) }
  else
    { qb with inputParams := qb.inputParams ++ [(key, value)] }

/-- `buildSelectClause` from `builder.go`. -/
def buildSelectClause (qb : QueryBuilderImpl) : String :=
  if qb.selectFields.isEmpty then "select *"
  else "select " ++ String.intercalate ", " qb.selectFields

/-- `buildFromClause` from `builder.go`. -/
def buildFromClause (qb : QueryBuilderImpl) : String :=
  if qb.sources.isEmpty then "from sources *"
  else "from sources " ++ String.intercalate ", " qb.sources

/-- The rank-expression step of `buildWhereClause`: when a rank
expression was set, render it and append the rendering to the
collected fragments when it is non-empty. -/
def appendRankFragment (rankExpression : Option (List Condition))
    (conditions : List String) : Option (List String) :=
  match rankExpression with
  | none => pure conditions
  | some re => do
      let rankYQL ← rankToYQL re
      pure (if rankYQL ≠ "" then conditions ++ [rankYQL] else conditions)

/-- `buildWhereClause` from `builder.go`: render every where-condition
in insertion order keeping the non-empty renderings, append the rank
expression's rendering if one was set and it is non-empty, and join
with `" and "`; the empty string when nothing survives.  `none` models
the panic of rendering a `nil` condition. -/
def buildWhereClause (qb : QueryBuilderImpl) : Option String := do
  let rendered ← condListToYQL qb.whereConditions
  let conditions := rendered.filter (fun s => s ≠ "")
  let conditions ← appendRankFragment qb.rankExpression conditions
  if conditions.isEmpty then pure ""
  else pure (String.intercalate " and " conditions)

/-- `strings.HasPrefix` from the Go standard library:
`len(s) >= len(prefix) && s[:len(prefix)] == prefix`, i.e. the prefix's
characters are an initial segment of the string's. -/
def hasPrefixStr (s pre : String) : Bool :=
  pre.data.isPrefixOf s.data

/-- `validate` from `builder.go`: at least one source, and every
input-parameter key must start with `input.query(`. -/
def validate (qb : QueryBuilderImpl) : Option ValidationError :=
  if qb.sources.isEmpty then
    some ⟨"sources", "at least one source must be specified"⟩
  else
    match qb.inputParams.find? (fun kv => ¬ hasPrefixStr kv.1 "input.query(") with
    | some kv => some ⟨"input",
        "input parameter key '" ++ kv.1 ++ "' should start with 'input.query('"⟩
    | none => none

/-- `BuildYQL` from `builder.go`: validation failure returns
`("", err)`; otherwise the select, from and where fragments joined by
single spaces, with the literal `where true` fallback when the where
clause is empty.  The outer `Option` models the panic of rendering a
`nil` condition. -/
def buildYQL (qb : QueryBuilderImpl) : Option (String × Option ValidationError) :=
  match validate qb with
  | some e => some ("", some e)
  | none => do
      let whereClause ← buildWhereClause qb
      let yqlParts := [buildSelectClause qb, buildFromClause qb] ++
        (if whereClause ≠ "" then ["where", whereClause] else ["where", "true"])
      pure (String.intercalate " " yqlParts, none)

/-- `Build` from `builder.go`: run `BuildYQL`; on error return no
query; otherwise populate the `VespaQuery`, copying each optional
setting only when it differs from its zero value. -/
def build (qb : QueryBuilderImpl) : Option (Option VespaQuery × Option ValidationError) := do
  let (yql, err) ← buildYQL qb
  match err with
  | some e => pure (none, some e)
  | none =>
      let q : VespaQuery := { yql := yql }
      let q := if qb.ranking ≠ "" then { q with ranking := qb.ranking } else q
      let q := if 0 < qb.hits then { q with hits := qb.hits } else q
      let q := if 0 < qb.offset then { q with offset := qb.offset } else q
      let q := if qb.defaultIndex ≠ "" then { q with defaultIndex := qb.defaultIndex } else q
      let q := if ¬ qb.inputParams.isEmpty then { q with input := qb.inputParams } else q
      let q := if qb.query ≠ "" then { q with query := qb.query } else q
      pure (some q, none)

example : buildYQL { sources := ["products"]
                     whereConditions := [.rangeC "price" (.float ⟨false, [1], 2⟩) (.float ⟨false, [1], 3⟩)]
                     selectFields := ["id", "title", "price"] } =
  some ("select id, title, price from sources products where ((price >= 10) and (price <= 100))",
    none) := by rfl
example : buildYQL { sources := ["products"] } =
  some ("select * from sources products where true", none) := by rfl
example : buildYQL {} = some ("", some ⟨"sources", "at least one source must be specified"⟩) := by rfl

/-! ## Helper lemmas about `String.intercalate` on short lists -/

theorem intercalate_one (s a : String) : String.intercalate s [a] = a := rfl

theorem intercalate_two (s a b : String) :
    String.intercalate s [a, b] = a ++ s ++ b := rfl

theorem intercalate_three (s a b c : String) :
    String.intercalate s [a, b, c] = a ++ s ++ b ++ s ++ c := rfl

theorem intercalate_four (s a b c d : String) :
    String.intercalate s [a, b, c, d] = a ++ s ++ b ++ s ++ c ++ s ++ d := rfl

/-! ## The claims -/

/-- **C1.** For every field name: `Eq(v)` with a string value renders
as `(field contains 'v')` and `NotEq(v)` with a string value as
`!(field contains 'v')`, while `Eq`/`NotEq` with an integer, float,
boolean or nil value render as `(field = value)` / `(field != value)`,
the value formatted by `formatValue` (a string formats as its
quote-escaped text in single quotes). -/
theorem C1_eq_neq_rendering :
    (∀ (f s : String) (ct : ContainsType),
      condToYQL (.fieldC f .eq (.str s) ct) =
        some ("(" ++ f ++ " contains " ++ formatValue (.str s) ++ ")") ∧
      condToYQL (.fieldC f .neq (.str s) ct) =
        some ("!(" ++ f ++ " contains " ++ formatValue (.str s) ++ ")")) ∧
    (∀ (f : String) (n : Int) (ct : ContainsType),
      condToYQL (.fieldC f .eq (.int n) ct) =
        some ("(" ++ f ++ " = " ++ formatValue (.int n) ++ ")") ∧
      condToYQL (.fieldC f .neq (.int n) ct) =
        some ("(" ++ f ++ " != " ++ formatValue (.int n) ++ ")")) ∧
    (∀ (f : String) (x : GoFloat) (ct : ContainsType),
      condToYQL (.fieldC f .eq (.float x) ct) =
        some ("(" ++ f ++ " = " ++ formatValue (.float x) ++ ")") ∧
      condToYQL (.fieldC f .neq (.float x) ct) =
        some ("(" ++ f ++ " != " ++ formatValue (.float x) ++ ")")) ∧
    (∀ (f : String) (b : Bool) (ct : ContainsType),
      condToYQL (.fieldC f .eq (.bool b) ct) =
        some ("(" ++ f ++ " = " ++ formatValue (.bool b) ++ ")") ∧
      condToYQL (.fieldC f .neq (.bool b) ct) =
        some ("(" ++ f ++ " != " ++ formatValue (.bool b) ++ ")")) ∧
    (∀ (f : String) (ct : ContainsType),
      condToYQL (.fieldC f .eq .null ct) = some ("(" ++ f ++ " = null)") ∧
      condToYQL (.fieldC f .neq .null ct) = some ("(" ++ f ++ " != null)")) ∧
    (∀ s : String, formatValue (.str s) = "'" ++ escapeString s ++ "'") := by
  refine ⟨fun f s ct => ⟨rfl, rfl⟩, fun f n ct => ⟨rfl, rfl⟩, fun f x ct => ⟨rfl, rfl⟩,
    fun f b ct => ⟨rfl, rfl⟩, fun f ct => ⟨?_, ?_⟩, fun s => rfl⟩ <;>
  · simp only [condToYQL, fieldToYQL, formatValue, Option.some.injEq]
    apply String.ext
    simp [String.data_append]

/-- **C2.** `And`/`Or` with zero conditions yield the absent (`nil`)
expression; with exactly one condition they return that condition
unchanged; with `n ≥ 2` conditions they build a left-associative
nested `BooleanCondition` tree, so that `And(A,B,C)` is
`((A AND B) AND C)` structurally and renders exactly
`((A AND B) AND C)` with the uppercase operator literal. -/
theorem C2_and_or_arities :
    (andGo [] = .nilC ∧ orGo [] = .nilC) ∧
    (∀ c : Condition, andGo [c] = c ∧ orGo [c] = c) ∧
    (∀ (c1 c2 : Condition) (rest : List Condition),
      andGo (c1 :: c2 :: rest) =
        (c2 :: rest).foldl (fun result ci => .booleanC result "AND" ci) c1 ∧
      orGo (c1 :: c2 :: rest) =
        (c2 :: rest).foldl (fun result ci => .booleanC result "OR" ci) c1) ∧
    (∀ A B C : Condition,
      andGo [A, B, C] = .booleanC (.booleanC A "AND" B) "AND" C) ∧
    (∀ (A B C : Condition) (a b c : String),
      condToYQL A = some a → condToYQL B = some b → condToYQL C = some c →
      condToYQL (andGo [A, B, C]) =
        some ("((" ++ a ++ " AND " ++ b ++ ") AND " ++ c ++ ")")) := by
  refine ⟨⟨rfl, rfl⟩, fun c => ⟨rfl, rfl⟩, fun c1 c2 rest => ⟨rfl, rfl⟩,
    fun A B C => rfl, fun A B C a b c ha hb hc => ?_⟩
  have h : andGo [A, B, C] = .booleanC (.booleanC A "AND" B) "AND" C := rfl
  rw [h]
  simp only [condToYQL, ha, hb, hc, Option.bind_eq_bind, Option.some_bind,
    Option.pure_def, Option.some.injEq]
  apply String.ext
  simp [String.data_append]

/-- Closed witness for `C2_and_or_arities`: the rendering clause at
three concrete conditions. -/
theorem C2_and_or_arities_witness :
    condToYQL (.fieldC "a" .gt (.int 1) .exact) = some "(a > 1)" ∧
    condToYQL (.fieldC "b" .gt (.int 2) .exact) = some "(b > 2)" ∧
    condToYQL (.fieldC "c" .gt (.int 3) .exact) = some "(c > 3)" ∧
    condToYQL (andGo [.fieldC "a" .gt (.int 1) .exact, .fieldC "b" .gt (.int 2) .exact,
        .fieldC "c" .gt (.int 3) .exact]) =
      some ("((" ++ "(a > 1)" ++ " AND " ++ "(b > 2)" ++ ") AND " ++ "(c > 3)" ++ ")") :=
  ⟨rfl, rfl, rfl,
    (C2_and_or_arities.2.2.2.2) _ _ _ "(a > 1)" "(b > 2)" "(c > 3)" rfl rfl rfl⟩

/-- **C3.** A `NearestNeighbor` node renders as
`({params}nearestNeighbor(field, vectorRef))`, the brace parameters in
the fixed order `targetHits` first, then `label` only if set, then
`distanceThreshold` only if set, then `approximate` only if set; an
unset optional parameter is entirely absent, and a set distance
threshold always renders with exactly six decimal places. -/
theorem C3_nearest_neighbor_rendering :
    (∀ (f qv : String) (th : Int) (lb : String) (dt : Option GoFloat) (ap : Option Bool),
      condToYQL (.nearestNeighbor f qv th lb dt ap) =
        some ("(\x7b" ++ "targetHits:" ++ toString th ++
          (if lb ≠ "" then ",label:'" ++ lb ++ "'" else "") ++
          (match dt with
           | some t => ",distanceThreshold:" ++ goFormatFloatF t
           | none => "") ++
          (match ap with
           | some b => ",approximate:" ++ (if b then "true" else "false")
           | none => "") ++
          "\x7dnearestNeighbor(" ++ f ++ ", " ++ qv ++ "))")) ∧
    (∀ t : GoFloat, ∃ intAndSignPart fracPart : String,
      goFormatFloatF t = intAndSignPart ++ "." ++ fracPart ∧ fracPart.length = 6) := by
  constructor
  · intro f qv th lb dt ap
    by_cases h : lb = "" <;> cases dt <;> cases ap <;>
    · simp only [condToYQL, nearestNeighborToYQL, h, if_true, if_false, ne_eq,
        not_true_eq_false, not_false_eq_true, ite_true, ite_false,
        List.cons_append, List.nil_append, List.singleton_append,
        intercalate_one, intercalate_two, intercalate_three, intercalate_four,
        Option.some.injEq]
      apply String.ext
      simp [String.data_append]
  · intro t
    refine ⟨(if t.neg then "-" else "") ++
      (if 0 < t.dp then
        digitsToString (t.digits.take (min t.digits.length t.dp.toNat)) ++
          zeroString (t.dp.toNat - min t.digits.length t.dp.toNat)
       else "0"),
      String.mk ((List.range 6).map (fun i =>
        let j : Int := t.dp + Int.ofNat i
        if 0 ≤ j ∧ j < (t.digits.length : Int) then Nat.digitChar (t.digits.getD j.toNat 0)
        else '0')), ?_, ?_⟩
    · show goFormatFloatF t = _
      rw [goFormatFloatF, fmtF]
      simp only [Nat.zero_lt_succ, if_true, ite_true]
      apply String.ext
      simp [String.data_append]
    · show List.length _ = 6
      rw [List.length_map, List.length_range]

/-- **C4.** `Between(min,max)` renders exactly
`((field >= min) and (field <= max))` with the lowercase keyword `and`,
while the `BooleanCondition` joining the same two comparisons renders
with uppercase `AND`; the two outputs decompose as
`pre ++ " and " ++ post` versus `pre ++ " AND " ++ post` for the same
`pre` and `post` — they differ exactly in the case of that keyword. -/
theorem C4_between_lowercase_and :
    ∀ (f : String) (mn mx : GoVal) (ct ct2 : ContainsType),
      condToYQL (.rangeC f mn mx) =
        some ("((" ++ f ++ " >= " ++ formatValue mn ++ ") and (" ++
          f ++ " <= " ++ formatValue mx ++ "))") ∧
      condToYQL (.booleanC (.fieldC f .gte mn ct) "AND" (.fieldC f .lte mx ct2)) =
        some ("((" ++ f ++ " >= " ++ formatValue mn ++ ") AND (" ++
          f ++ " <= " ++ formatValue mx ++ "))") ∧
      (∃ pre post : String,
        ("((" ++ f ++ " >= " ++ formatValue mn ++ ") and (" ++
            f ++ " <= " ++ formatValue mx ++ "))") = pre ++ " and " ++ post ∧
        ("((" ++ f ++ " >= " ++ formatValue mn ++ ") AND (" ++
            f ++ " <= " ++ formatValue mx ++ "))") = pre ++ " AND " ++ post) := by
  intro f mn mx ct ct2
  refine ⟨rfl, ?_, "((" ++ f ++ " >= " ++ formatValue mn ++ ")",
    "(" ++ f ++ " <= " ++ formatValue mx ++ "))", ?_, ?_⟩
  · simp only [condToYQL, fieldToYQL, Option.bind_eq_bind, Option.some_bind,
      Option.pure_def, Option.some.injEq]
    apply String.ext
    simp [String.data_append]
  · apply String.ext
    simp [String.data_append]
  · apply String.ext
    simp [String.data_append]

/-- Escaping a quote-free character list is the identity. -/
theorem flatMap_escape_of_not_mem (l : List Char) (h : '\'' ∉ l) :
    l.flatMap (fun c => if c = '\'' then ['\\', '\''] else [c]) = l := by
  induction l with
  | nil => rfl
  | cons c rest ih =>
      simp only [List.mem_cons, not_or] at h
      simp only [List.flatMap_cons, ih h.2]
      rw [if_neg (fun hc => h.1 hc.symm)]
      rfl

/-- **C7.** Formatting a string value wraps it in single quotes and
escapes exactly the single-quote character: every `'` becomes `\'`, no
other character is altered (a quote-free string passes through
unchanged), and the escaping pass is applied exactly once at
formatting time — so `escape("it's") = it\'s`, the formatted value is
`'it\'s'`, and it is not the doubly-escaped text a second pass would
produce. -/
theorem C7_escape_single_quotes :
    (∀ s : String, formatValue (.str s) = "'" ++ escapeString s ++ "'") ∧
    (∀ s : String,
      (escapeString s).data =
        s.data.flatMap (fun c => if c = '\'' then ['\\', '\''] else [c])) ∧
    (∀ c : Char, c ≠ '\'' →
      (if c = '\'' then (['\\', '\''] : List Char) else [c]) = [c]) ∧
    (∀ s : String, '\'' ∉ s.data → escapeString s = s) ∧
    (escapeString "it's" = "it\\'s") ∧
    (formatValue (.str "it's") = "'it\\'s'") ∧
    (formatValue (.str "it's") ≠ "'" ++ escapeString (escapeString "it's") ++ "'") := by
  refine ⟨fun s => rfl, fun s => rfl, fun c hc => if_neg hc, fun s hs => ?_,
    by decide, by decide, by decide⟩
  apply String.ext
  show (escapeString s).data = s.data
  rw [show (escapeString s).data =
      s.data.flatMap (fun c => if c = '\'' then ['\\', '\''] else [c]) from rfl]
  exact flatMap_escape_of_not_mem s.data hs

/-- Closed witness for `C7_escape_single_quotes`: the quote-free
clause at a concrete string. -/
theorem C7_escape_single_quotes_witness :
    '\'' ∉ ("abc" : String).data ∧ escapeString "abc" = "abc" :=
  ⟨by decide, C7_escape_single_quotes.2.2.2.1 "abc" (by decide)⟩

/-! ## Renderability: condition trees without the `nil` interface value -/

mutual
/-- `true` when a condition tree contains no `nil` interface value —
the trees on which every `ToYQL` call returns (rather than panics). -/
def noNil : Condition → Bool
  | .nilC => false
  | .fieldC _ _ _ _ => true
  | .booleanC l _ r => noNil l && noNil r
  | .rangeC _ _ _ => true
  | .nearestNeighbor _ _ _ _ _ _ => true
  | .userQueryF _ => true
  | .notC c => noNil c
  | .sameElementC _ cs => noNilList cs
  | .customF _ => true

/-- `noNil` for every element of a list. -/
def noNilList : List Condition → Bool
  | [] => true
  | c :: rest => noNil c && noNilList rest
end

mutual
/-- Rendering a `nil`-free condition never panics. -/
theorem condToYQL_isSome : ∀ c : Condition, noNil c = true → (condToYQL c).isSome = true
  | .nilC, h => by simp [noNil] at h
  | .fieldC _ _ _ _, _ => rfl
  | .booleanC l op r, h => by
      rw [noNil, Bool.and_eq_true] at h
      have hl := condToYQL_isSome l h.1
      have hr := condToYQL_isSome r h.2
      rw [Option.isSome_iff_exists] at hl hr
      obtain ⟨ls, hls⟩ := hl
      obtain ⟨rs, hrs⟩ := hr
      rw [condToYQL, hls, hrs]
      rfl
  | .rangeC _ _ _, _ => rfl
  | .nearestNeighbor _ _ _ _ _ _, _ => rfl
  | .userQueryF _, _ => rfl
  | .notC c, h => by
      rw [noNil] at h
      have hc := condToYQL_isSome c h
      rw [Option.isSome_iff_exists] at hc
      obtain ⟨s, hs⟩ := hc
      rw [condToYQL, hs]
      rfl
  | .sameElementC f cs, h => by
      rw [noNil] at h
      have hcs := condListToYQL_isSome cs h
      rw [Option.isSome_iff_exists] at hcs
      obtain ⟨rs, hrs⟩ := hcs
      rw [condToYQL]
      by_cases he : cs.isEmpty
      · rw [if_pos he]; rfl
      · rw [if_neg he, hrs]
        simp only [Option.pure_def, Option.bind_eq_bind, Option.some_bind]
        split <;> rfl
  | .customF _, _ => rfl

/-- Rendering a list of `nil`-free conditions never panics. -/
theorem condListToYQL_isSome :
    ∀ cs : List Condition, noNilList cs = true → (condListToYQL cs).isSome = true
  | [], _ => rfl
  | c :: rest, h => by
      rw [noNilList, Bool.and_eq_true] at h
      have hc := condToYQL_isSome c h.1
      have hr := condListToYQL_isSome rest h.2
      rw [Option.isSome_iff_exists] at hc hr
      obtain ⟨s, hs⟩ := hc
      obtain ⟨ss, hss⟩ := hr
      rw [condListToYQL, hs, hss]
      rfl
end

/-- `true` when every condition held by the builder — the where
conditions and, when a rank expression was set, its conditions — is
free of the `nil` interface value. -/
def builderNoNil (qb : QueryBuilderImpl) : Bool :=
  noNilList qb.whereConditions &&
    (match qb.rankExpression with
     | none => true
     | some re => noNilList re)

/-- `rankToYQL` of a `nil`-free list never panics. -/
theorem rankToYQL_isSome (cs : List Condition) (h : noNilList cs = true) :
    (rankToYQL cs).isSome = true := by
  rw [rankToYQL]
  by_cases he : cs.isEmpty
  · rw [if_pos he]; rfl
  · rw [if_neg he]
    have hcs := condListToYQL_isSome cs h
    rw [Option.isSome_iff_exists] at hcs
    obtain ⟨rs, hrs⟩ := hcs
    rw [hrs]
    simp only [Option.pure_def, Option.bind_eq_bind, Option.some_bind]
    split <;> rfl

/-- `buildWhereClause` of a `nil`-free builder never panics. -/
theorem buildWhereClause_isSome (qb : QueryBuilderImpl) (h : builderNoNil qb = true) :
    (buildWhereClause qb).isSome = true := by
  rw [builderNoNil, Bool.and_eq_true] at h
  have hw := condListToYQL_isSome qb.whereConditions h.1
  rw [Option.isSome_iff_exists] at hw
  obtain ⟨rs, hrs⟩ := hw
  rw [buildWhereClause, hrs]
  cases hre : qb.rankExpression with
  | none =>
      simp only [hre, appendRankFragment, Option.pure_def, Option.bind_eq_bind,
        Option.some_bind]
      split <;> rfl
  | some re =>
      have h2 := h.2
      rw [hre] at h2
      have hrk := rankToYQL_isSome re h2
      rw [Option.isSome_iff_exists] at hrk
      obtain ⟨rk, hrk⟩ := hrk
      simp only [hre, appendRankFragment, hrk, Option.pure_def, Option.bind_eq_bind,
        Option.some_bind]
      split <;> split <;> rfl

/-- On a validated, panic-free state, `buildYQL` yields the select,
from and where fragments joined by single spaces, with the `where
true` fallback for an empty where clause. -/
theorem buildYQL_success (qb : QueryBuilderImpl) (wc : String)
    (hval : validate qb = none) (hwc : buildWhereClause qb = some wc) :
    buildYQL qb = some (buildSelectClause qb ++ " " ++ buildFromClause qb ++ " " ++
      (if wc = "" then "where true" else "where " ++ wc), none) := by
  rw [buildYQL, hval]
  simp only [hwc, Option.pure_def, Option.bind_eq_bind, Option.some_bind,
    Option.some.injEq, List.cons_append, List.nil_append]
  by_cases hw : wc = ""
  · simp only [hw, ne_eq, not_true_eq_false, ite_false, if_false, intercalate_four,
      Prod.mk.injEq, and_true]
    apply String.ext
    simp [String.data_append]
  · simp only [hw, ne_eq, not_false_eq_true, ite_true, if_true, intercalate_four,
      Prod.mk.injEq, and_true]
    apply String.ext
    simp [String.data_append]

/-- **C5.** For every builder state that passes validation and renders
without panicking: the where clause renders each added top-level where
condition in insertion order, then the rank expression if one was set,
drops the fragments that render to the empty string, and joins the
survivors with the literal lowercase `" and "`; the final query text
is the select, from and where fragments joined by single spaces, with
the literal fallback `where true` when no fragment survives. -/
theorem C5_where_clause_assembly :
    ∀ (qb : QueryBuilderImpl) (wc : String),
      validate qb = none →
      buildWhereClause qb = some wc →
      buildYQL qb = some (buildSelectClause qb ++ " " ++ buildFromClause qb ++ " " ++
        (if wc = "" then "where true" else "where " ++ wc), none) ∧
      (∃ rs rankFrags : List String,
        condListToYQL qb.whereConditions = some rs ∧
        (match qb.rankExpression with
         | none => rankFrags = []
         | some re => ∃ rk, rankToYQL re = some rk ∧ rankFrags = [rk]) ∧
        wc = (if (rs.filter (fun s => s ≠ "") ++ rankFrags.filter (fun s => s ≠ "")).isEmpty
              then ""
              else String.intercalate " and "
                (rs.filter (fun s => s ≠ "") ++ rankFrags.filter (fun s => s ≠ "")))) := by
  intro qb wc hval hwc
  constructor
  · exact buildYQL_success qb wc hval hwc
  · rw [buildWhereClause] at hwc
    cases hcl : condListToYQL qb.whereConditions with
    | none => rw [hcl] at hwc; simp at hwc
    | some rs =>
        rw [hcl] at hwc
        simp only [Option.pure_def, Option.bind_eq_bind, Option.some_bind] at hwc
        cases hre : qb.rankExpression with
        | none =>
            rw [hre] at hwc
            simp only [appendRankFragment, Option.pure_def, Option.some_bind] at hwc
            refine ⟨rs, [], rfl, rfl, ?_⟩
            simp only [List.filter_nil, List.append_nil]
            rw [← apply_ite Option.some] at hwc
            exact (Option.some.inj hwc).symm
        | some re =>
            rw [hre] at hwc
            simp only [appendRankFragment, Option.pure_def, Option.bind_eq_bind] at hwc
            cases hrk : rankToYQL re with
            | none => rw [hrk] at hwc; simp at hwc
            | some rk =>
                rw [hrk] at hwc
                simp only [Option.some_bind] at hwc
                refine ⟨rs, [rk], rfl, ⟨rk, hrk, rfl⟩, ?_⟩
                by_cases hrke : rk = ""
                · have hsing : ([rk].filter (fun s => s ≠ "")) = [] := by simp [hrke]
                  rw [hsing, List.append_nil]
                  simp only [ne_eq, hrke, not_true_eq_false, ite_false, if_false] at hwc
                  rw [← apply_ite Option.some] at hwc
                  exact (Option.some.inj hwc).symm
                · have hsing : ([rk].filter (fun s => s ≠ "")) = [rk] := by simp [hrke]
                  rw [hsing]
                  simp only [ne_eq, hrke, not_false_eq_true, ite_true, if_true] at hwc
                  rw [← apply_ite Option.some] at hwc
                  exact (Option.some.inj hwc).symm

/-- A concrete builder state exercising `C5_where_clause_assembly`. -/
def qbC5 : QueryBuilderImpl :=
  { selectFields := ["id", "title"]
    sources := ["products"]
    whereConditions := [.fieldC "price" .gt (.int 0) .exact] }

/-- Closed witness for `C5_where_clause_assembly` at `qbC5`. -/
theorem C5_where_clause_assembly_witness :
    validate qbC5 = none ∧ buildWhereClause qbC5 = some "(price > 0)" ∧
      (buildYQL qbC5 = some (buildSelectClause qbC5 ++ " " ++ buildFromClause qbC5 ++ " " ++
        (if "(price > 0)" = "" then "where true" else "where " ++ "(price > 0)"), none)) :=
  ⟨rfl, rfl, (C5_where_clause_assembly qbC5 "(price > 0)" rfl rfl).1⟩

/-- The builder state refuting C6's success clause: one source, no
input parameters, but a `nil` where-condition (the result of `And()`
with no arguments passed to `Where`). -/
def qbC6bad : QueryBuilderImpl :=
  { sources := ["products"]
    whereConditions := [.nilC] }

/-- **C6 counterexample.**  `qbC6bad` has a source and only
well-prefixed input-parameter keys (there are none) and passes
validation, yet neither `BuildYQL` nor `Build` succeeds: rendering the
`nil` where-condition panics (`none`), so the claimed "on any state
with at least one source and only well-prefixed input keys the build
succeeds with no error" is false. -/
theorem C6_build_fails_despite_valid_state :
    qbC6bad.sources ≠ [] ∧
    (∀ kv ∈ qbC6bad.inputParams, hasPrefixStr kv.1 "input.query(" = true) ∧
    validate qbC6bad = none ∧
    buildYQL qbC6bad = none ∧
    build qbC6bad = none ∧
    ¬ ∃ y, buildYQL qbC6bad = some (y, none) := by
  refine ⟨by simp [qbC6bad], by simp [qbC6bad], rfl, rfl, rfl, ?_⟩
  rintro ⟨y, hy⟩
  rw [show buildYQL qbC6bad = none from rfl] at hy
  exact Option.noConfusion hy

/-- **C6 (amended).**  `Build` and `BuildYQL` return a validation
error if and only if no source was added or some input-parameter key
does not begin with `input.query(`; with no source the error names
field `"sources"`, otherwise it names field `"input"`; on failure
`BuildYQL` yields the empty string and `Build` yields no query; and on
a validated state the build succeeds with no error **provided** every
held condition is non-`nil` (rendering a `nil` condition — e.g. the
result of `And()` with no arguments — panics instead). -/
theorem C6_validation_amended :
    (∀ qb : QueryBuilderImpl,
      (validate qb).isSome = true ↔
        (qb.sources.isEmpty = true ∨
          qb.inputParams.any (fun kv => ¬ hasPrefixStr kv.1 "input.query(") = true)) ∧
    (∀ qb : QueryBuilderImpl, qb.sources.isEmpty = true →
      validate qb = some ⟨"sources", "at least one source must be specified"⟩) ∧
    (∀ (qb : QueryBuilderImpl) (e : ValidationError),
      qb.sources.isEmpty = false → validate qb = some e → e.field = "input") ∧
    (∀ (qb : QueryBuilderImpl) (e : ValidationError), validate qb = some e →
      buildYQL qb = some ("", some e) ∧ build qb = some (none, some e)) ∧
    (∀ (qb : QueryBuilderImpl) (r : String × Option ValidationError),
      validate qb = none → buildYQL qb = some r → r.2 = none) ∧
    (∀ qb : QueryBuilderImpl, validate qb = none → builderNoNil qb = true →
      ∃ y, buildYQL qb = some (y, none) ∧ ∃ q, build qb = some (some q, none)) := by
  refine ⟨?_, ?_, ?_, ?_, ?_, ?_⟩
  · intro qb
    constructor
    · intro h
      rw [validate] at h
      by_cases hs : qb.sources.isEmpty = true
      · exact Or.inl hs
      · rw [if_neg hs] at h
        refine Or.inr ?_
        cases hfind : qb.inputParams.find? (fun kv => ¬ hasPrefixStr kv.1 "input.query(") with
        | none => rw [hfind] at h; exact absurd h (by simp)
        | some kv =>
            rw [List.any_eq_true]
            have hmem := List.mem_of_find?_eq_some hfind
            have hp := List.find?_some hfind
            exact ⟨kv, hmem, by simpa using hp⟩
    · intro h
      rw [validate]
      by_cases hs : qb.sources.isEmpty = true
      · rw [if_pos hs]; rfl
      · rw [if_neg hs]
        rcases h with h | h
        · exact absurd h hs
        · rw [List.any_eq_true] at h
          obtain ⟨kv, hmem, hp⟩ := h
          cases hfind : qb.inputParams.find? (fun kv => ¬ hasPrefixStr kv.1 "input.query(") with
          | none =>
              rw [List.find?_eq_none] at hfind
              exact absurd hp (by simpa using hfind kv hmem)
          | some kv2 => rfl
  · intro qb h
    rw [validate, if_pos h]
  · intro qb e hs h
    rw [validate, if_neg (by simp [hs])] at h
    cases hfind : qb.inputParams.find? (fun kv => ¬ hasPrefixStr kv.1 "input.query(") with
    | none => rw [hfind] at h; exact Option.noConfusion h
    | some kv =>
        rw [hfind] at h
        have := Option.some.inj h
        rw [← this]
  · intro qb e h
    constructor
    · rw [buildYQL, h]
    · rw [build, buildYQL, h]
      rfl
  · intro qb r hval hr
    rw [buildYQL, hval] at hr
    cases hwc : buildWhereClause qb with
    | none => rw [hwc] at hr; exact Option.noConfusion hr
    | some wc =>
        rw [hwc] at hr
        simp only [Option.pure_def, Option.bind_eq_bind, Option.some_bind,
          Option.some.injEq] at hr
        rw [← hr]
  · intro qb hval hnn
    have hw := buildWhereClause_isSome qb hnn
    rw [Option.isSome_iff_exists] at hw
    obtain ⟨wc, hwc⟩ := hw
    have hy := buildYQL_success qb wc hval hwc
    refine ⟨_, hy, ?_⟩
    rw [build, hy]
    exact ⟨_, rfl⟩

/-- A valid, `nil`-free builder state for the C6 witness. -/
def qbC6ok : QueryBuilderImpl :=
  { sources := ["listings"]
    whereConditions := [.fieldC "brand" .containsOp (.str "nike") .exact]
    inputParams := [("input.query(query_vector)", .strList ["0.1"])] }

/-- Closed witness for `C6_validation_amended`: the success clause at
`qbC6ok`. -/
theorem C6_validation_amended_witness :
    validate qbC6ok = none ∧ builderNoNil qbC6ok = true ∧
      ∃ y, buildYQL qbC6ok = some (y, none) ∧ ∃ q, build qbC6ok = some (some q, none) :=
  ⟨rfl, rfl, C6_validation_amended.2.2.2.2.2 qbC6ok rfl rfl⟩

/-- The builder state refuting C8: `And()` with zero arguments (the
`nil` interface value) passed to `Where`. -/
def qbC8bad : QueryBuilderImpl :=
  { sources := ["items"]
    whereConditions := [andGo []] }

/-- **C8 counterexample.**  Rendering is not total on everything the
public constructors produce: `And()` with zero arguments yields the
`nil` condition, rendering it panics (`none`), and a builder state
holding it panics in `BuildYQL`/`Build` — it does not render to the
empty string and is not silently dropped. -/
theorem C8_rendering_panics_on_empty_and :
    andGo [] = Condition.nilC ∧
    condToYQL (andGo []) = none ∧
    buildYQL qbC8bad = none ∧
    build qbC8bad = none ∧
    ¬ ∃ s, condToYQL (andGo []) = some s := by
  refine ⟨rfl, rfl, rfl, rfl, ?_⟩
  rintro ⟨s, hs⟩
  exact Option.noConfusion hs

/-- **C8 (amended).**  Rendering is total on every `nil`-free
condition tree and every builder state holding only `nil`-free
conditions (validation failures are reported as values, never raised);
unsupported value kinds render as a quoted stringified literal rather
than an error, and empty expression lists (`sameElement`, rank) render
to the empty string.  `And()`/`Or()` of zero arguments, however, yield
the `nil` condition, whose rendering panics (see the
counterexample). -/
theorem C8_rendering_total_amended :
    (∀ c : Condition, noNil c = true → ∃ s, condToYQL c = some s) ∧
    (∀ qb : QueryBuilderImpl, builderNoNil qb = true → ∃ r, buildYQL qb = some r) ∧
    (∀ r : String, formatValue (.other r) = "'" ++ r ++ "'") ∧
    (∀ ss : List String, formatValue (.strList ss) = "'" ++ goRepr (.strList ss) ++ "'") ∧
    (∀ vs : List GoVal, formatValue (.list vs) = "'" ++ goRepr (.list vs) ++ "'") ∧
    (∀ f : String, condToYQL (.sameElementC f []) = some "") ∧
    rankToYQL [] = some "" := by
  refine ⟨?_, ?_, fun r => rfl, fun ss => rfl, fun vs => rfl, fun f => rfl, rfl⟩
  · intro c hc
    have h := condToYQL_isSome c hc
    rwa [Option.isSome_iff_exists] at h
  · intro qb hnn
    cases hval : validate qb with
    | some e => exact ⟨("", some e), by rw [buildYQL, hval]⟩
    | none =>
        have hw := buildWhereClause_isSome qb hnn
        rw [Option.isSome_iff_exists] at hw
        obtain ⟨wc, hwc⟩ := hw
        refine ⟨_, buildYQL_success qb wc hval hwc⟩

/-- Closed witness for `C8_rendering_total_amended`: totality at a
concrete `nil`-free condition and builder state. -/
theorem C8_rendering_total_amended_witness :
    noNil (.notC (.sameElementC "sizes" [])) = true ∧
      (∃ s, condToYQL (.notC (.sameElementC "sizes" [])) = some s) ∧
      builderNoNil { sources := ["s"], rankExpression := some [.customF "bm25(text)"] } = true ∧
      ∃ r, buildYQL { sources := ["s"], rankExpression := some [.customF "bm25(text)"] } = some r :=
  ⟨rfl, C8_rendering_total_amended.1 _ rfl,
   rfl, C8_rendering_total_amended.2.1 _ rfl⟩

/-- **C9 counterexample.**  `BooleanCondition` and `NotCondition` do
not omit a child whose rendering is the empty string: with the
empty-rendering `sameElement` node as left operand, the combinator
renders `( AND (brand contains 'nike'))` — the empty child's slot and
the operator remain — instead of the right child's text alone or the
empty string; negating the empty-rendering node yields `!()`. -/
theorem C9_empty_child_not_omitted :
    condToYQL (.sameElementC "sizes" []) = some "" ∧
    condToYQL (.booleanC (.sameElementC "sizes" []) "AND"
        (.fieldC "brand" .containsOp (.str "nike") .exact)) =
      some "( AND (brand contains 'nike'))" ∧
    some "( AND (brand contains 'nike'))" ≠
      condToYQL (.fieldC "brand" .containsOp (.str "nike") .exact) ∧
    some "( AND (brand contains 'nike'))" ≠ (some "" : Option String) ∧
    condToYQL (.notC (.sameElementC "sizes" [])) = some "!()" := by
  refine ⟨rfl, by rfl, ?_, by decide, by rfl⟩
  rw [show condToYQL (.fieldC "brand" .containsOp (.str "nike") .exact) =
    some "(brand contains 'nike')" from rfl]
  decide

/-- **C9 (amended).**  Rendering returns text or the empty string.
`SameElementCondition`, the rank expression, and the where-clause
assembler drop children that render to the empty string; but
`BooleanCondition` and `NotCondition` do not — they interpolate the
empty rendering into their templates verbatim. -/
theorem C9_empty_children_amended :
    (∀ (f : String) (cs : List Condition) (rs : List String), cs ≠ [] →
      condListToYQL cs = some rs →
      condToYQL (.sameElementC f cs) =
        some (if (rs.filter (fun s => s ≠ "")).isEmpty then ""
          else "(" ++ f ++ " contains sameElement(" ++
            String.intercalate ", " (rs.filter (fun s => s ≠ "")) ++ "))")) ∧
    (∀ (cs : List Condition) (rs : List String), cs ≠ [] →
      condListToYQL cs = some rs →
      rankToYQL cs =
        some (if (rs.filter (fun s => s ≠ "")).isEmpty then ""
          else "rank(" ++ String.intercalate ", " (rs.filter (fun s => s ≠ "")) ++ ")")) ∧
    (∀ (qb : QueryBuilderImpl) (rs : List String), qb.rankExpression = none →
      condListToYQL qb.whereConditions = some rs →
      buildWhereClause qb =
        some (if (rs.filter (fun s => s ≠ "")).isEmpty then ""
          else String.intercalate " and " (rs.filter (fun s => s ≠ "")))) ∧
    (∀ (l r : Condition) (lt rt : String) (op : String),
      condToYQL l = some lt → condToYQL r = some rt →
      condToYQL (.booleanC l op r) = some ("(" ++ lt ++ " " ++ op ++ " " ++ rt ++ ")")) ∧
    (∀ c : Condition, condToYQL c = some "" → condToYQL (.notC c) = some "!()") := by
  refine ⟨?_, ?_, ?_, ?_, ?_⟩
  · intro f cs rs hne hcl
    rw [condToYQL, if_neg (by simpa [List.isEmpty_iff] using hne), hcl]
    simp only [Option.pure_def, Option.bind_eq_bind, Option.some_bind]
    rw [← apply_ite Option.some]
  · intro cs rs hne hcl
    rw [rankToYQL, if_neg (by simpa [List.isEmpty_iff] using hne), hcl]
    simp only [Option.pure_def, Option.bind_eq_bind, Option.some_bind]
    rw [← apply_ite Option.some]
  · intro qb rs hre hcl
    rw [buildWhereClause, hcl]
    simp only [hre, appendRankFragment, Option.pure_def, Option.bind_eq_bind,
      Option.some_bind]
    rw [← apply_ite Option.some]
  · intro l r lt rt op hl hr
    simp only [condToYQL, hl, hr, Option.bind_eq_bind, Option.some_bind, Option.pure_def]
  · intro c hc
    simp only [condToYQL, hc, Option.bind_eq_bind, Option.some_bind, Option.pure_def,
      Option.some.injEq]
    apply String.ext
    simp [String.data_append]

/-- Closed witness for `C9_empty_children_amended`: the
`sameElement` omission clause and the negation clause at concrete
inputs. -/
theorem C9_empty_children_amended_witness :
    ([Condition.customF "", Condition.customF "a(b)"] ≠ ([] : List Condition)) ∧
    condListToYQL [Condition.customF "", Condition.customF "a(b)"] = some ["", "a(b)"] ∧
    condToYQL (.sameElementC "attrs" [Condition.customF "", Condition.customF "a(b)"]) =
      some (if ((["", "a(b)"] : List String).filter (fun s => s ≠ "")).isEmpty then ""
        else "(" ++ "attrs" ++ " contains sameElement(" ++
          String.intercalate ", " ((["", "a(b)"] : List String).filter (fun s => s ≠ "")) ++
          "))") ∧
    condToYQL (.notC (.customF "")) = some "!()" :=
  ⟨List.cons_ne_nil _ _, rfl,
   C9_empty_children_amended.1 "attrs" [Condition.customF "", Condition.customF "a(b)"]
     ["", "a(b)"] (List.cons_ne_nil _ _) rfl,
   C9_empty_children_amended.2.2.2.2 (.customF "") rfl⟩

/-- Decimal digits print as digit characters. -/
theorem digitChar_isDigit : ∀ d < 10, (Nat.digitChar d).isDigit = true := by decide

/-- `getD` with default `0` on a list of decimal digits stays below 10. -/
theorem getD_lt_ten : ∀ (l : List Nat) (n : Nat), (∀ d ∈ l, d < 10) → l.getD n 0 < 10
  | [], n, _ => by simp [List.getD]
  | d :: rest, 0, h => by simpa using h d (by simp)
  | d :: rest, n + 1, h => by
      simp only [List.getD_cons_succ]
      exact getD_lt_ten rest n (fun x hx => h x (by simp [hx]))

/-- Every character `fmtF` emits is a digit or the decimal point. -/
theorem fmtF_chars (x : GoFloat) (prec : Nat) (hd : ∀ d ∈ x.digits, d < 10) :
    ∀ c ∈ (fmtF x prec).data, c.isDigit = true ∨ c = '.' := by
  intro c hc
  simp only [fmtF] at hc
  rw [String.data_append] at hc
  rcases List.mem_append.mp hc with h | h
  · split at h
    · rw [String.data_append] at h
      rcases List.mem_append.mp h with h | h
      · simp only [digitsToString] at h
        rw [List.mem_map] at h
        obtain ⟨d, hdm, hcd⟩ := h
        exact Or.inl (hcd ▸ digitChar_isDigit d (hd d (List.mem_of_mem_take hdm)))
      · simp only [zeroString] at h
        rw [List.eq_of_mem_replicate h]
        exact Or.inl (by decide)
    · rw [show ("0" : String).data = ['0'] from rfl] at h
      simp only [List.mem_singleton] at h
      exact Or.inl (h ▸ by decide)
  · split at h
    · rw [String.data_append] at h
      rcases List.mem_append.mp h with h | h
      · rw [show ("." : String).data = ['.'] from rfl] at h
        simp only [List.mem_singleton] at h
        exact Or.inr h
      · rw [List.mem_map] at h
        obtain ⟨i, _, hgi⟩ := h
        refine Or.inl ?_
        rw [← hgi]
        show (if _ then Nat.digitChar (x.digits.getD _ 0) else '0').isDigit = true
        split
        · exact digitChar_isDigit _ (getD_lt_ten _ _ hd)
        · decide
    · rw [show ("" : String).data = [] from rfl] at h
      exact absurd h (List.not_mem_nil c)

/-- **C10 counterexample.**  The value formatter does not always
produce fixed-point text for floats: Go's `%v` uses the shortest `'g'`
format, so the `float64` `0.0000001` — shortest digits `1`, decimal
exponent `-7` — renders as `1e-07`, which is scientific notation, not
a fixed-point decimal (it contains characters other than digits, a
point and a sign). -/
theorem C10_float_renders_scientific :
    formatValue (.float ⟨false, [1], -6⟩) = "1e-07" ∧
    ¬ (∀ c ∈ (formatValue (.float ⟨false, [1], -6⟩)).data,
        c.isDigit = true ∨ c = '.' ∨ c = '-') := by
  exact ⟨rfl, by decide⟩

/-- **C10 (amended).**  Integers format as their canonical decimal
text and booleans as `true`/`false`; a float formats with Go's
shortest-`'g'` `%v` layout: fixed-point — only digit, point and sign
characters — exactly when the decimal exponent lies in `[-4, 6)`, and
scientific (`fmtE`) notation otherwise, as for `1e-07`. -/
theorem C10_canonical_forms_amended :
    (∀ n : Int, formatValue (.int n) = toString n) ∧
    (formatValue (.bool true) = "true" ∧ formatValue (.bool false) = "false") ∧
    (∀ x : GoFloat, formatValue (.float x) = goFormatFloat x) ∧
    (∀ x : GoFloat, (∀ d ∈ x.digits, d < 10) →
      -4 ≤ x.dp - 1 → x.dp - 1 < 6 →
      ∀ c ∈ (goFormatFloat x).data, c.isDigit = true ∨ c = '.' ∨ c = '-') ∧
    (∀ x : GoFloat, (x.dp - 1 < -4 ∨ 6 ≤ x.dp - 1) →
      goFormatFloat x = (if x.neg then "-" else "") ++ fmtE x) := by
  refine ⟨fun n => rfl, ⟨rfl, rfl⟩, fun x => rfl, ?_, ?_⟩
  · intro x hd h1 h2 c hc
    have hcond : ¬ (x.dp - 1 < -4 ∨ 6 ≤ x.dp - 1) := by omega
    simp only [goFormatFloat, hcond, if_false, ite_false] at hc
    rw [String.data_append] at hc
    rcases List.mem_append.mp hc with h | h
    · cases hneg : x.neg
      · rw [hneg] at h
        simp at h
      · rw [hneg] at h
        simp only [if_true, ite_true,
          show ("-" : String).data = ['-'] from rfl, List.mem_singleton] at h
        exact Or.inr (Or.inr h)
    · rcases fmtF_chars x _ hd c h with hdig | hdot
      · exact Or.inl hdig
      · exact Or.inr (Or.inl hdot)
  · intro x h
    simp only [goFormatFloat, h, if_true, ite_true]

/-- Closed witness for `C10_canonical_forms_amended`: the fixed-point
clause at the float `4.5`. -/
theorem C10_canonical_forms_amended_witness :
    (∀ d ∈ (GoFloat.mk false [4, 5] 1).digits, d < 10) ∧
      (-4 ≤ (GoFloat.mk false [4, 5] 1).dp - 1 ∧ (GoFloat.mk false [4, 5] 1).dp - 1 < 6) ∧
      ∀ c ∈ (goFormatFloat (GoFloat.mk false [4, 5] 1)).data,
        c.isDigit = true ∨ c = '.' ∨ c = '-' :=
  ⟨by decide, ⟨by decide, by decide⟩,
   C10_canonical_forms_amended.2.2.2.1 (GoFloat.mk false [4, 5] 1)
     (by decide) (by decide) (by decide)⟩

end VespaGo
